import Mathlib

/-!
Verification of the EditorConfig resolution-and-application engine of
`src/index.js` (atom-editorconfig): a shallow embedding of its settings
normalizer, pre-save hook (final-newline handling), settings applier,
wrap-guide interception and lifecycle handlers, together with theorems
settling the specification claims.
-/

deriving instance DecidableEq for Except

namespace AtomEditorconfig

/-- A raw EditorConfig value as handed over by the external parser:
a JavaScript string or boolean. -/
inductive RawVal where
  | str (s : String)
  | bool (b : Bool)
deriving DecidableEq

/-- The raw configuration mapping returned by `editorconfig.parse`.
Only the keys consulted by the normalizer in `observeTextEditor`
(src/index.js lines 200-229) are tracked explicitly; `otherKeys` records
the names of any further keys so that emptiness of the mapping
(`Object.keys(config).length === 0`) stays faithful. -/
structure RawConfig where
  trim_trailing_whitespace : Option RawVal := none
  insert_final_newline : Option RawVal := none
  indent_style : Option RawVal := none
  end_of_line : Option RawVal := none
  indent_size : Option RawVal := none
  tab_width : Option RawVal := none
  max_line_length : Option RawVal := none
  charset : Option RawVal := none
  otherKeys : List String := []
deriving DecidableEq

/-- `Object.keys(config).length === 0` (src/index.js line 182). -/
def RawConfig.isEmpty (c : RawConfig) : Bool :=
  c.trim_trailing_whitespace.isNone && c.insert_final_newline.isNone &&
  c.indent_style.isNone && c.end_of_line.isNone && c.indent_size.isNone &&
  c.tab_width.isNone && c.max_line_length.isNone && c.charset.isNone &&
  c.otherKeys.isEmpty

/-- JavaScript truthiness of a possibly-absent raw value: `undefined` and
the empty string and `false` are falsy, every other string and `true`
are truthy. -/
def jsTruthy : Option RawVal → Bool
  | none => false
  | some (.str s) => !s.isEmpty
  | some (.bool b) => b

/-- Whitespace characters skipped by JavaScript `parseInt`. -/
def jsIsSpace (c : Char) : Bool :=
  c == ' ' || c == '\t' || c == '\n' || c == '\r' || c == '\x0b' || c == '\x0c'

/-- Value of a list of decimal digit characters. -/
def digitsToNat (ds : List Char) : Nat :=
  ds.foldl (fun a c => 10 * a + (c.toNat - 48)) 0

/-- JavaScript `parseInt(s, 10)`: skip leading whitespace, read an optional
sign, then the longest run of decimal digits; `none` models `NaN`
(no digits at all). -/
def parseIntJS (s : String) : Option Int :=
  let cs := s.toList.dropWhile jsIsSpace
  let signedTail : Int × List Char :=
    match cs with
    | '-' :: rest => (-1, rest)
    | '+' :: rest => (1, rest)
    | _ => (1, cs)
  let ds := signedTail.2.takeWhile Char.isDigit
  if ds.isEmpty then none else some (signedTail.1 * (digitsToNat ds : Int))

/-- JavaScript `parseInt(x, 10)` on a possibly-absent raw value:
`String(undefined) = "undefined"`, `String(true) = "true"` and
`String(false) = "false"` all have no leading digits and give `NaN`. -/
def parseIntOf : Option RawVal → Option Int
  | some (.str s) => parseIntJS s
  | some (.bool _) => none
  | none => none

/-- A canonical boolean setting: a boolean or the sentinel `'unset'`. -/
inductive BoolOrUnset where
  | val (b : Bool)
  | unset
deriving DecidableEq

/-- A canonical integer setting: an integer or the sentinel `'unset'`. -/
inductive IntOrUnset where
  | val (n : Int)
  | unset
deriving DecidableEq

/-- A canonical string setting: a string or the sentinel `'unset'`. -/
inductive StrOrUnset where
  | val (s : String)
  | unset
deriving DecidableEq

/-- The canonical settings record stored on `buffer.editorconfig.settings`
(src/index.js lines 29-39). -/
structure Settings where
  trim_trailing_whitespace : BoolOrUnset
  insert_final_newline : BoolOrUnset
  max_line_length : IntOrUnset
  end_of_line : StrOrUnset
  indent_style : StrOrUnset
  tab_width : IntOrUnset
  charset : StrOrUnset
deriving DecidableEq

/-- The all-`'unset'` record installed by `initializeTextBuffer`. -/
def initialSettings : Settings :=
  { trim_trailing_whitespace := .unset, insert_final_newline := .unset,
    max_line_length := .unset, end_of_line := .unset, indent_style := .unset,
    tab_width := .unset, charset := .unset }

/-- A JavaScript runtime exception raised during normalization. -/
inductive JsError where
  | typeError (msg : String)
deriving DecidableEq

/-- Normalization of the two boolean-strict keys (src/index.js lines
200-208): the value is kept only when the key is present with an actual
boolean; anything else becomes `'unset'`. -/
def normBoolStrict : Option RawVal → BoolOrUnset
  | some (.bool b) => .val b
  | _ => .unset

/-- Normalization of `indent_style` (src/index.js lines 210-213):
`config.indent_style.search(/^(space|tab)$/)` keeps exactly the strings
`"space"` and `"tab"`; calling `.search` on a boolean value throws a
`TypeError`. -/
def normIndentStyle : Option RawVal → Except JsError StrOrUnset
  | none => .ok .unset
  | some (.bool _) =>
      .error (.typeError "config.indent_style.search is not a function")
  | some (.str s) => .ok (if s == "space" || s == "tab" then .val s else .unset)

/-- Normalization of `end_of_line` (src/index.js lines 188-192, 215):
`lineEndings[config.end_of_line] || 'unset'`. -/
def normEndOfLine : Option RawVal → StrOrUnset
  | some (.str "crlf") => .val "\r\n"
  | some (.str "cr") => .val "\r"
  | some (.str "lf") => .val "\n"
  | _ => .unset

/-- The shared positivity guard `if (isNaN(x) || x <= 0) x = 'unset'`
(src/index.js lines 218-220 and 223-225). -/
def posIntOrUnset : Option Int → IntOrUnset
  | some n => if n ≤ 0 then .unset else .val n
  | none => .unset

/-- Normalization of `tab_width` (src/index.js lines 217-220):
`parseInt(config.indent_size || config.tab_width, 10)` — the `||` falls
through on a falsy (absent, empty-string or `false`) `indent_size`. -/
def normTabWidth (c : RawConfig) : IntOrUnset :=
  posIntOrUnset (parseIntOf (if jsTruthy c.indent_size then c.indent_size else c.tab_width))

/-- Normalization of `max_line_length` (src/index.js lines 222-225). -/
def normMaxLineLength (c : RawConfig) : IntOrUnset :=
  posIntOrUnset (parseIntOf c.max_line_length)

/-- JavaScript global replacement of every hyphen by nothing. -/
def stripHyphens (s : String) : String :=
  String.mk (s.toList.filter (fun c => c ≠ '-'))

/-- `s.toLowerCase()`. -/
def jsToLower (s : String) : String :=
  String.mk (s.toList.map Char.toLower)

/-- Normalization of `charset` (src/index.js lines 227-229): when the
key is present, strip every hyphen and lowercase the string; calling
`.replace` on a boolean value throws a `TypeError`. -/
def normCharset : Option RawVal → Except JsError StrOrUnset
  | none => .ok .unset
  | some (.bool _) =>
      .error (.typeError "config.charset.replace is not a function")
  | some (.str s) => .ok (.val (jsToLower (stripHyphens s)))

/-- The whole normalization block of `observeTextEditor`
(src/index.js lines 199-231).  The fields of `settings` are overwritten
one by one in source order; when a `TypeError` is thrown partway, the
error carries the half-updated record that the mutations so far have
produced. -/
def normalizeSettings (c : RawConfig) (prev : Settings) :
    Except (JsError × Settings) Settings :=
  let s2 : Settings :=
    { prev with
      trim_trailing_whitespace := normBoolStrict c.trim_trailing_whitespace,
      insert_final_newline := normBoolStrict c.insert_final_newline }
  match normIndentStyle c.indent_style with
  | .error e => .error (e, s2)
  | .ok style =>
    let s6 : Settings :=
      { s2 with
        indent_style := style,
        end_of_line := normEndOfLine c.end_of_line,
        tab_width := normTabWidth c,
        max_line_length := normMaxLineLength c }
    match normCharset c.charset with
    | .error e => .error (e, s6)
    | .ok ch => .ok { s6 with charset := ch }

/-- The spec text's own reading of the tab-width rule, kept for comparison
with the code: the integer is parsed from `indent_size` whenever that key
is *present* (regardless of JavaScript truthiness), else from
`tab_width`. -/
def tabWidthSpecReading (c : RawConfig) : IntOrUnset :=
  posIntOrUnset (parseIntOf (if c.indent_size.isSome then c.indent_size else c.tab_width))

/-! ### The pre-save hook (`onWillSave`, src/index.js lines 121-150)

A buffer is modelled by its list of rows (Atom's `TextBuffer` always has
at least one row; the row list excludes line endings, so a buffer whose
text ends in a newline has a final empty row). -/

/-- Atom's `TextBuffer.isRowBlank` on one row: no non-whitespace
character (`/\S/` finds nothing). -/
def isBlankStr (s : String) : Bool :=
  s.toList.all (fun c => c == ' ' || c == '\t' || c == '\x0b' || c == '\x0c')

/-- `buffer.isRowBlank(r)`; out-of-range rows read as the empty row. -/
def rowBlank (rows : List String) (r : Nat) : Bool :=
  isBlankStr (rows.getD r "")

/-- Atom's `TextBuffer.previousNonBlankRow(startRow)`: the closest row
strictly before `startRow` that is not blank, or `null`. -/
def previousNonBlankRow (rows : List String) : Nat → Option Nat
  | 0 => none
  | r + 1 => if rowBlank rows r then previousNonBlankRow rows r else some r

/-- The `stripStart` computed by `onWillSave` (src/index.js lines
136-140).  When `previousNonBlankRow` returns `null`, JavaScript
arithmetic takes over: in the `true` branch `null + 1` is the number `1`;
in the `false` branch `stripStart` stays `null`, which compares as `0`
and feeds `null + 1 = 1 = 0 + 1` into `deleteRows`, so the value `0`
reproduces both uses. -/
def stripStartOf (b : Bool) (rows : List String) : Nat :=
  match previousNonBlankRow rows (rows.length - 1) with
  | some k => if b then k + 1 else k
  | none => if b then 1 else 0

/-- The final-newline part of `onWillSave` (src/index.js lines 132-149).
`deleteRows(stripStart + 1, lastRow)` with `lastRow` the final row keeps
exactly the rows before `stripStart + 1`; `buffer.append('\n')` adds one
empty row. -/
def finalNewlinePass (ifn : BoolOrUnset) (rows : List String) : List String :=
  match ifn with
  | .unset => rows
  | .val b =>
    if rowBlank rows (rows.length - 1) then
      if stripStartOf b rows < rows.length - 1 then
        rows.take (stripStartOf b rows + 1)
      else rows
    else if b then rows ++ [""] else rows

/-- Text of a buffer given by its rows. -/
def bufferText (rows : List String) : String :=
  String.intercalate "\n" rows

/-- The claim's target shape for `insert_final_newline === true`: the
buffer text ends in exactly one newline (final row empty) and the row
before it is not blank. -/
def exactlyOneFinalNewline (rows : List String) : Prop :=
  2 ≤ rows.length ∧ rows.getD (rows.length - 1) "" = "" ∧
    isBlankStr (rows.getD (rows.length - 2) "") = false

instance (rows : List String) : Decidable (exactlyOneFinalNewline rows) := by
  unfold exactlyOneFinalNewline
  infer_instance

/-! ### The wrap-guide interception (src/index.js lines 94-110) -/

/-- A symbolic column-computing function of the wrap-guide view:
either one of the view's own native functions or the interceptor
installed by `applySettings`. -/
inductive GuideFn where
  | nativeFn (id : Nat)
  | interceptorFn
deriving DecidableEq

/-- The mutable function slots of the wrap-guide DOM element that
`applySettings` touches.  `hasEcfgMarker` models the
`wrapGuide.editorconfig` marker property. -/
structure WrapGuide where
  hasEcfgMarker : Bool
  getGuideColumn : GuideFn
  getNativeGuideColumn : Option GuideFn
  getGuidesColumns : GuideFn
  getNativeGuidesColumns : Option GuideFn
deriving DecidableEq

/-- The attachment step of `applySettings` (src/index.js lines 97-108):
only when the marker is missing, save the current functions under the
`native` names and install the interceptor. -/
def attachInterceptor (g : WrapGuide) : WrapGuide :=
  if g.hasEcfgMarker then g
  else
    { hasEcfgMarker := true,
      getNativeGuideColumn := some g.getGuideColumn,
      getGuideColumn := .interceptorFn,
      getNativeGuidesColumns := some g.getGuidesColumns,
      getGuidesColumns := .interceptorFn }

/-- Modelled from the spec: the wrap-guide interceptor itself lives in
`lib/wrapguide-interceptor.js`, which is not among the sources; per the
spec it answers the resolved `max_line_length` when set and delegates to
the preserved native computation when `'unset'`.  `ev` evaluates a native
function to its column; calling a missing native function is a JavaScript
`TypeError`, modelled by `none`. -/
def evalGuideColumn (g : WrapGuide) (mll : IntOrUnset) (ev : GuideFn → Int) :
    Option Int :=
  match g.getGuideColumn with
  | .nativeFn i => some (ev (.nativeFn i))
  | .interceptorFn =>
    match mll with
    | .val n => some n
    | .unset => g.getNativeGuideColumn.map ev

/-! ### The settings applier and the resolution callback

`applySettings` (src/index.js lines 49-117) acts on the editors that
display the buffer, on the buffer itself and on the wrap-guide view.
Host preferences looked up through `atom.config.get(key, configOptions)`
are modelled as plain values (the scope argument only selects which host
value is read). -/

/-- The host (Atom) global preferences consulted as fallbacks. -/
structure HostConfig where
  softTabs : Bool
  tabLength : Int
  fileEncoding : String
  preferredLineLength : Int
deriving DecidableEq

/-- An open text editor: `usesSoftTabs` models `editor.usesSoftTabs()`,
which may be `undefined` when indeterminate. -/
structure EditorState where
  eid : Nat
  bufferId : Nat
  usesSoftTabs : Option Bool
  softTabs : Bool
  tabLength : Int
  preferredLineLength : Int
deriving DecidableEq

/-- The text buffer owning the editorconfig state. -/
structure BufferState where
  bid : Nat
  path : Option String
  encoding : String
  preferredLineEnding : Option String
deriving DecidableEq

/-- The world visible to one buffer's editorconfig object: the open
editors, the buffer, the stored settings, the preserved raw config, the
severity indicator, the wrap-guide element (absent when not rendered) and
two counters recording `setState` emissions and `updateGuide` calls. -/
structure World where
  editors : List EditorState
  buffer : BufferState
  settings : Settings
  ecfgConfig : Option RawConfig
  severity : String
  wrapGuide : Option WrapGuide
  stateEmits : Nat
  guideUpdates : Nat
deriving DecidableEq

/-- `getCurrentEditor` (src/index.js lines 42-46): the `reduce` keeps the
last editor whose buffer is identical to this buffer, else `undefined`. -/
def getCurrentEditor (w : World) : Option EditorState :=
  w.editors.foldl
    (fun prev curr => if curr.bufferId = w.buffer.bid then some curr else prev)
    none

/-- The editor-level mutations of `applySettings` (src/index.js lines
59-92): soft tabs, tab length and (via `editor.update`) the preferred
line length. -/
def applyToEditor (host : HostConfig) (s : Settings) (e : EditorState) :
    EditorState :=
  { e with
    softTabs :=
      match s.indent_style with
      | .unset =>
        match e.usesSoftTabs with
        | some b => b
        | none => host.softTabs
      | .val style => style == "space",
    tabLength :=
      match s.tab_width with
      | .unset => host.tabLength
      | .val n => n,
    preferredLineLength :=
      match s.max_line_length with
      | .unset => host.preferredLineLength
      | .val n => n }

/-- `applySettings` (src/index.js lines 49-117): return untouched when no
editor displays the buffer; otherwise mutate the found editor, the
buffer's encoding, the wrap guide (when rendered) and — only when set —
the buffer's preferred line ending, then emit a `setState`. -/
def applySettings (host : HostConfig) (w : World) : World :=
  match getCurrentEditor w with
  | none => w
  | some ed =>
    if ed.bufferId = w.buffer.bid then
      { w with
        editors := w.editors.map
          (fun e => if e.eid = ed.eid then applyToEditor host w.settings e else e),
        buffer :=
          { w.buffer with
            encoding :=
              match w.settings.charset with
              | .unset => host.fileEncoding
              | .val c => c,
            preferredLineEnding :=
              match w.settings.end_of_line with
              | .unset => w.buffer.preferredLineEnding
              | .val eol => some eol },
        wrapGuide := w.wrapGuide.map attachInterceptor,
        guideUpdates := w.guideUpdates + (if w.wrapGuide.isSome then 1 else 0),
        stateEmits := w.stateEmits + 1 }
    else { w with stateEmits := w.stateEmits + 1 }

/-- The `then`-callback of `editorconfig.parse(file).then(config => ...)`
(src/index.js lines 181-233): an empty mapping returns at once; otherwise
`ecfg.config` is preserved and the settings are normalized in place, then
applied.  A `TypeError` thrown mid-normalization escapes the callback
with the half-updated record already stored. -/
def thenCallback (host : HostConfig) (config : RawConfig) (w : World) :
    Except (JsError × World) World :=
  if config.isEmpty then .ok w
  else
    match normalizeSettings config w.settings with
    | .ok s =>
        .ok (applySettings host { w with settings := s, ecfgConfig := some config })
    | .error (e, sHalf) =>
        .error (e, { w with settings := sHalf, ecfgConfig := some config })

/-- A promise rejection reason: an `Error` instance or any other value. -/
inductive RejectReason where
  | errInstance (msg : String)
  | nonError (value : String)
deriving DecidableEq

/-- Bluebird's predicate for the typed catch `.catch(Error, handler)`. -/
def isErrorInstance : RejectReason → Bool
  | .errInstance _ => true
  | .nonError _ => false

/-- String rendering of the reason inside the warning template. -/
def reasonText : RejectReason → String
  | .errInstance m => m
  | .nonError v => v

/-- Result of one settled resolution: the world afterwards, the warnings
written to the console, and a rejection left unhandled (propagating past
the typed catch), if any. -/
structure ResolveOutcome where
  world : World
  warnings : List String
  unhandled : Option RejectReason
deriving DecidableEq

/-- Settling of a fulfilled parse: run the `then`-callback; a `TypeError`
it throws is an `Error` instance, so the typed catch handles it and logs
the warning. -/
def settleFulfilled (host : HostConfig) (config : RawConfig) (w : World) :
    ResolveOutcome :=
  match thenCallback host config w with
  | .ok w2 => ⟨w2, [], none⟩
  | .error (.typeError m, w2) => ⟨w2, ["atom-editorconfig: TypeError: " ++ m], none⟩

/-- The full promise chain of `observeTextEditor` (src/index.js lines
181-236): run the `then`-callback on a fulfilled parse, then the typed
catch `.catch(Error, e => console.warn(...))`, which handles exactly the
rejections whose reason is an `Error` instance (a `TypeError` thrown by
the callback included) and lets every other reason pass unhandled. -/
def resolveAndApply (host : HostConfig) (res : Except RejectReason RawConfig)
    (w : World) : ResolveOutcome :=
  match res with
  | .ok config => settleFulfilled host config w
  | .error r =>
    if isErrorInstance r then ⟨w, ["atom-editorconfig: " ++ reasonText r], none⟩
    else ⟨w, [], some r⟩

/-- The world after one completed resolution, as observed by the rest of
the program (the catch handler only logs). -/
def runCompletion (host : HostConfig) (config : RawConfig) (w : World) : World :=
  (resolveAndApply host (.ok config) w).world

/-! ### Workspace-wide re-resolution (src/index.js lines 157-161, 240-245) -/

/-- One open editor as seen by `reapplyEditorconfig`: its id, its
buffer's file path (if any) and the settings stored on its buffer. -/
structure WEditor where
  eid : Nat
  file : Option String
  settings : Settings
deriving DecidableEq

/-- `observeTextEditor` restricted to one already-initialized editor that
displays its buffer, with the parse outcome for a path given by `env`:
no path registers a retry and resolves nothing; an empty mapping
short-circuits; otherwise the settings are normalized and applied, the
returned event list naming the editor that had settings re-applied. -/
def observeOne (env : String → RawConfig) (e : WEditor) : WEditor × List Nat :=
  match e.file with
  | none => (e, [])
  | some f =>
    if (env f).isEmpty then (e, [])
    else
      match normalizeSettings (env f) e.settings with
      | .ok s => ({ e with settings := s }, [e.eid])
      | .error (_, sHalf) => ({ e with settings := sHalf }, [])

/-- `reapplyEditorconfig` (src/index.js lines 240-245): iterate over
**all** open text editors and run `observeTextEditor` on each. -/
def reapplyAll (env : String → RawConfig) : List WEditor → List WEditor × List Nat
  | [] => ([], [])
  | e :: rest =>
    ((observeOne env e).1 :: (reapplyAll env rest).1,
     (observeOne env e).2 ++ (reapplyAll env rest).2)

/-- Directory of a path, up to and including the final slash. -/
def dirOf (p : String) : String :=
  String.mk ((p.toList.reverse.dropWhile (fun c => c ≠ '/')).reverse)

/-- Boolean list-prefix test (kernel-reducible). -/
def leadsList : List Char → List Char → Bool
  | [], _ => true
  | _ :: _, [] => false
  | a :: as, b :: bs => a == b && leadsList as bs

/-- A saved `.editorconfig` file governs exactly the files below its
directory. -/
def governs (cfgPath filePath : String) : Bool :=
  leadsList (dirOf cfgPath).toList filePath.toList

/-! ### Teardown (`deactivate`, src/index.js lines 269-275) -/

/-- An open editor at teardown time: whether its buffer carries an
initialized `editorconfig` state, and whether its disposables have been
disposed. -/
structure TEditor where
  eid : Nat
  hasEcfg : Bool
  disposed : Bool
deriving DecidableEq

/-- The `textEditors.forEach(editor => editor.getBuffer().editorconfig
.disposables.dispose())` loop: reading `.disposables` of `undefined`
throws a `TypeError`, which aborts the iteration, leaving the remaining
editors untouched. -/
def deactivateRun : List TEditor → List TEditor × Option String
  | [] => ([], none)
  | e :: rest =>
    if e.hasEcfg then
      ((⟨e.eid, e.hasEcfg, true⟩ : TEditor) :: (deactivateRun rest).1,
       (deactivateRun rest).2)
    else (e :: rest, some "TypeError: Cannot read property disposables of undefined")

/-- `deactivate` (src/index.js lines 269-275): run the disposal loop;
`statusTile.removeIcon()` is reached only when the loop did not throw. -/
def deactivate (eds : List TEditor) : List TEditor × Option String × Bool :=
  ((deactivateRun eds).1, (deactivateRun eds).2, (deactivateRun eds).2.isNone)

/-! ### Concrete sample values used in closed theorems -/

/-- A host configuration with ordinary defaults. -/
def host0 : HostConfig :=
  { softTabs := true, tabLength := 2, fileEncoding := "utf8",
    preferredLineLength := 80 }

/-- A single editor displaying buffer 7. -/
def editor0 : EditorState :=
  { eid := 1, bufferId := 7, usesSoftTabs := some true, softTabs := true,
    tabLength := 2, preferredLineLength := 80 }

/-- Buffer 7 after its path changed to a new location. -/
def buffer0 : BufferState :=
  { bid := 7, path := some "/project/renamed.txt", encoding := "utf8",
    preferredLineEnding := none }

/-- A world in which buffer 7 is displayed by `editor0`. -/
def world0 : World :=
  { editors := [editor0], buffer := buffer0, settings := initialSettings,
    ecfgConfig := none, severity := "subtle", wrapGuide := none,
    stateEmits := 0, guideUpdates := 0 }

/-- The same world with the buffer no longer displayed by any editor. -/
def worldNoEditor : World := { world0 with editors := [] }

/-- Raw config resolved for the buffer's new path. -/
def cfgNewPath : RawConfig := { tab_width := some (.str "2") }

/-- Raw config resolved for the buffer's old path by a request issued
earlier. -/
def cfgOldPath : RawConfig := { tab_width := some (.str "8") }

/-- The empty raw config (no applicable EditorConfig rules). -/
def emptyRawConfig : RawConfig := {}

/-- Raw config with boolean-typed values of the kind the external parser
produces for `key = true` lines. -/
def cfgBooleanStyle : RawConfig :=
  { trim_trailing_whitespace := some (.bool true),
    indent_style := some (.bool true) }

/-- A raw config carrying a present-but-falsy `indent_size`. -/
def cfgFalsyIndentSize : RawConfig :=
  { indent_size := some (.str ""), tab_width := some (.str "4") }

/-- Raw config used by the tab-width witness. -/
def cfgTabFour : RawConfig := { tab_width := some (.str "4") }

/-- Expected normalization of `cfgTabFour`. -/
def settingsTabFour : Settings := { initialSettings with tab_width := .val 4 }

/-- A fresh, unattached wrap-guide view. -/
def guide0 : WrapGuide :=
  { hasEcfgMarker := false, getGuideColumn := .nativeFn 0,
    getNativeGuideColumn := none, getGuidesColumns := .nativeFn 1,
    getNativeGuidesColumns := none }

/-- Workspace environment for the re-resolution theorems: each file path
resolves to its own governing rules. -/
def envW : String → RawConfig := fun f =>
  if f = "/p/a.txt" then { tab_width := some (.str "4") }
  else if f = "/q/b.txt" then { tab_width := some (.str "2") }
  else {}

/-- Editor under `/p`, the directory of the saved `.editorconfig`. -/
def edA : WEditor := { eid := 1, file := some "/p/a.txt", settings := initialSettings }

/-- Editor under `/q`, not governed by the saved `.editorconfig`; its
stored settings already match its own rules. -/
def edB : WEditor :=
  { eid := 2, file := some "/q/b.txt",
    settings := { initialSettings with tab_width := .val 2 } }

/-- Expected normalization of `edB`'s rules. -/
def settingsB : Settings := { initialSettings with tab_width := .val 2 }

/-- Teardown input: buffer 2 never had an editorconfig state. -/
def edsTeardown : List TEditor :=
  [⟨1, true, false⟩, ⟨2, false, false⟩, ⟨3, true, false⟩]

/-! ## Helper lemmas on list indexing -/

theorem getD_eq_get (l : List String) (i : Nat) (h : i < l.length) (d : String) :
    l.getD i d = l.get ⟨i, h⟩ := by
  induction l generalizing i with
  | nil => simp at h
  | cons a t ih =>
    cases i with
    | zero => rfl
    | succ i => exact ih i (Nat.lt_of_succ_lt_succ h)

theorem getD_take (l : List String) :
    ∀ n i : Nat, i < n → ∀ d : String, (l.take n).getD i d = l.getD i d := by
  induction l with
  | nil => intro n i h d; simp
  | cons a t ih =>
    intro n i h d
    cases n with
    | zero => omega
    | succ n =>
      cases i with
      | zero => rfl
      | succ i => exact ih n i (by omega) d

theorem getD_append_lt (l : List String) (x d : String) :
    ∀ i : Nat, i < l.length → (l ++ [x]).getD i d = l.getD i d := by
  induction l with
  | nil => intro i h; simp at h
  | cons a t ih =>
    intro i h
    cases i with
    | zero => rfl
    | succ i => exact ih i (Nat.lt_of_succ_lt_succ h)

theorem getD_append_len (l : List String) (x d : String) :
    (l ++ [x]).getD l.length d = x := by
  induction l with
  | nil => rfl
  | cons a t ih => exact ih

/-! ## Helper lemmas on `previousNonBlankRow` -/

theorem previousNonBlankRow_succ (rows : List String) (r : Nat) :
    previousNonBlankRow rows (r + 1) =
      if rowBlank rows r then previousNonBlankRow rows r else some r := rfl

theorem pnbr_none_blank (rows : List String) :
    ∀ n, previousNonBlankRow rows n = none → ∀ j, j < n → rowBlank rows j = true := by
  intro n
  induction n with
  | zero => intro _ j hj; omega
  | succ r ih =>
    intro h j hj
    rw [previousNonBlankRow_succ] at h
    by_cases hb : rowBlank rows r = true
    · rw [if_pos hb] at h
      rcases Nat.lt_or_ge j r with h1 | h2
      · exact ih h j h1
      · have hjr : j = r := by omega
        rw [hjr]; exact hb
    · rw [if_neg hb] at h
      exact absurd h (by simp)

theorem pnbr_lt (rows : List String) :
    ∀ n k, previousNonBlankRow rows n = some k → k < n := by
  intro n
  induction n with
  | zero => intro k h; exact absurd h (by simp [previousNonBlankRow])
  | succ r ih =>
    intro k h
    rw [previousNonBlankRow_succ] at h
    by_cases hb : rowBlank rows r = true
    · rw [if_pos hb] at h
      have := ih k h
      omega
    · rw [if_neg hb] at h
      injection h with h2
      omega

theorem pnbr_nonblank (rows : List String) :
    ∀ n k, previousNonBlankRow rows n = some k → rowBlank rows k = false := by
  intro n
  induction n with
  | zero => intro k h; exact absurd h (by simp [previousNonBlankRow])
  | succ r ih =>
    intro k h
    rw [previousNonBlankRow_succ] at h
    by_cases hb : rowBlank rows r = true
    · rw [if_pos hb] at h
      exact ih k h
    · rw [if_neg hb] at h
      injection h with h2
      rw [← h2]
      simp only [Bool.not_eq_true] at hb
      exact hb

theorem pnbr_max (rows : List String) :
    ∀ n k, previousNonBlankRow rows n = some k →
      ∀ j, k < j → j < n → rowBlank rows j = true := by
  intro n
  induction n with
  | zero => intro k h; exact absurd h (by simp [previousNonBlankRow])
  | succ r ih =>
    intro k h j hkj hjn
    rw [previousNonBlankRow_succ] at h
    by_cases hb : rowBlank rows r = true
    · rw [if_pos hb] at h
      rcases Nat.lt_or_ge j r with h1 | h2
      · exact ih k h j hkj h1
      · have hjr : j = r := by omega
        rw [hjr]; exact hb
    · rw [if_neg hb] at h
      injection h with h2
      omega

theorem exists_pnbr_some (rows : List String)
    (hne : ∃ i : Fin rows.length, isBlankStr (rows.get i) = false)
    (hlb : rowBlank rows (rows.length - 1) = true) :
    ∃ k, previousNonBlankRow rows (rows.length - 1) = some k := by
  cases hp : previousNonBlankRow rows (rows.length - 1) with
  | some k => exact ⟨k, rfl⟩
  | none =>
    exfalso
    obtain ⟨i, hi⟩ := hne
    have hL : 0 < rows.length := i.pos
    have hblk : rowBlank rows i.val = true := by
      rcases Nat.lt_or_ge i.val (rows.length - 1) with h1 | h2
      · exact pnbr_none_blank rows _ hp i.val h1
      · have hie : i.val = rows.length - 1 := by
          have := i.isLt
          omega
        rw [hie]; exact hlb
    have hblk2 : isBlankStr (rows.getD i.val "") = true := hblk
    rw [getD_eq_get rows i.val i.isLt, Fin.eta] at hblk2
    rw [hi] at hblk2
    exact absurd hblk2 (by simp)

/-! ## Helper lemmas on `finalNewlinePass` -/

theorem finalNewlinePass_true (rows : List String) :
    finalNewlinePass (.val true) rows =
      if rowBlank rows (rows.length - 1) then
        if stripStartOf true rows < rows.length - 1 then
          rows.take (stripStartOf true rows + 1)
        else rows
      else rows ++ [""] := by
  show (if rowBlank rows (rows.length - 1) then _ else if true then rows ++ [""] else rows) = _
  by_cases h : rowBlank rows (rows.length - 1) = true
  · rw [if_pos h, if_pos h]
  · rw [if_neg h, if_neg h, if_pos rfl]

theorem finalNewlinePass_false (rows : List String) :
    finalNewlinePass (.val false) rows =
      if rowBlank rows (rows.length - 1) then
        if stripStartOf false rows < rows.length - 1 then
          rows.take (stripStartOf false rows + 1)
        else rows
      else rows := by
  show (if rowBlank rows (rows.length - 1) then _ else if false then rows ++ [""] else rows) = _
  by_cases h : rowBlank rows (rows.length - 1) = true
  · rw [if_pos h, if_pos h]
  · rw [if_neg h, if_neg h, if_neg (by simp)]

theorem c2_true_case (rows : List String)
    (hne : ∃ i : Fin rows.length, isBlankStr (rows.get i) = false)
    (hemp : ∀ i : Fin rows.length, isBlankStr (rows.get i) = true → rows.get i = "") :
    exactlyOneFinalNewline (finalNewlinePass (.val true) rows) := by
  obtain ⟨i0, hi0⟩ := hne
  have hL : 0 < rows.length := i0.pos
  rw [finalNewlinePass_true]
  by_cases hlb : rowBlank rows (rows.length - 1) = true
  · rw [if_pos hlb]
    obtain ⟨k, hk⟩ := exists_pnbr_some rows ⟨i0, hi0⟩ hlb
    have hklt : k < rows.length - 1 := pnbr_lt rows _ k hk
    have hknb : rowBlank rows k = false := pnbr_nonblank rows _ k hk
    have hss : stripStartOf true rows = k + 1 := by
      unfold stripStartOf
      rw [hk]
      rfl
    have hblankeq : ∀ j, k < j → j ≤ rows.length - 1 → rows.getD j "" = "" := by
      intro j hj1 hj2
      have hjlt : j < rows.length := by omega
      have hjb : rowBlank rows j = true := by
        rcases Nat.lt_or_ge j (rows.length - 1) with hlt | hge
        · exact pnbr_max rows _ k hk j hj1 hlt
        · have hje : j = rows.length - 1 := by omega
          rw [hje]; exact hlb
      have hjb2 : isBlankStr (rows.getD j "") = true := hjb
      rw [getD_eq_get rows j hjlt] at hjb2 ⊢
      exact hemp ⟨j, hjlt⟩ hjb2
    rw [hss]
    by_cases hcmp : k + 1 < rows.length - 1
    · rw [if_pos hcmp]
      have hlen : (rows.take (k + 1 + 1)).length = k + 2 := by
        rw [List.length_take]; omega
      refine ⟨by omega, ?_, ?_⟩
      · rw [hlen]
        have he : k + 2 - 1 = k + 1 := by omega
        rw [he, getD_take rows (k + 1 + 1) (k + 1) (by omega) ""]
        exact hblankeq (k + 1) (by omega) (by omega)
      · rw [hlen]
        have he : k + 2 - 2 = k := by omega
        rw [he, getD_take rows (k + 1 + 1) k (by omega) ""]
        exact hknb
    · rw [if_neg hcmp]
      have hkeq : k + 1 = rows.length - 1 := by omega
      refine ⟨by omega, ?_, ?_⟩
      · exact hblankeq (rows.length - 1) (by omega) (by omega)
      · have he : rows.length - 2 = k := by omega
        rw [he]; exact hknb
  · rw [if_neg hlb]
    have hlb2 : rowBlank rows (rows.length - 1) = false := by
      simp only [Bool.not_eq_true] at hlb; exact hlb
    have hlen : (rows ++ [""]).length = rows.length + 1 := by simp
    refine ⟨by rw [hlen]; omega, ?_, ?_⟩
    · rw [hlen]
      have he : rows.length + 1 - 1 = rows.length := by omega
      rw [he]
      exact getD_append_len rows "" ""
    · rw [hlen]
      have he : rows.length + 1 - 2 = rows.length - 1 := by omega
      rw [he, getD_append_lt rows "" "" (rows.length - 1) (by omega)]
      exact hlb2

theorem c2_false_id (rows : List String)
    (h : isBlankStr (rows.getD (rows.length - 1) "") = false) :
    finalNewlinePass (.val false) rows = rows := by
  have h2 : rowBlank rows (rows.length - 1) = false := h
  rw [finalNewlinePass_false, if_neg (by simp [h2])]

theorem c2_false_strips (rows : List String)
    (hne : ∃ i : Fin rows.length, isBlankStr (rows.get i) = false) :
    isBlankStr ((finalNewlinePass (.val false) rows).getD
      ((finalNewlinePass (.val false) rows).length - 1) "") = false := by
  obtain ⟨i0, hi0⟩ := hne
  have hL : 0 < rows.length := i0.pos
  by_cases hlb : rowBlank rows (rows.length - 1) = true
  · obtain ⟨k, hk⟩ := exists_pnbr_some rows ⟨i0, hi0⟩ hlb
    have hklt : k < rows.length - 1 := pnbr_lt rows _ k hk
    have hknb : rowBlank rows k = false := pnbr_nonblank rows _ k hk
    have hss : stripStartOf false rows = k := by
      unfold stripStartOf
      rw [hk]
      rfl
    have hres : finalNewlinePass (.val false) rows = rows.take (k + 1) := by
      rw [finalNewlinePass_false, if_pos hlb, hss, if_pos hklt]
    rw [hres]
    have hlen : (rows.take (k + 1)).length = k + 1 := by
      rw [List.length_take]; omega
    rw [hlen]
    have he : k + 1 - 1 = k := by omega
    rw [he, getD_take rows (k + 1) k (by omega) ""]
    exact hknb
  · have hlb2 : rowBlank rows (rows.length - 1) = false := by
      simp only [Bool.not_eq_true] at hlb; exact hlb
    have hres : finalNewlinePass (.val false) rows = rows := by
      rw [finalNewlinePass_false, if_neg (by simp [hlb2])]
    rw [hres]
    exact hlb2

theorem c2_false_len (rows : List String) :
    (finalNewlinePass (.val false) rows).length ≤ rows.length := by
  rw [finalNewlinePass_false]
  by_cases hlb : rowBlank rows (rows.length - 1) = true
  · rw [if_pos hlb]
    by_cases h2 : stripStartOf false rows < rows.length - 1
    · rw [if_pos h2, List.length_take]; omega
    · rw [if_neg h2]
  · rw [if_neg hlb]

theorem c2_unset_id (rows : List String) : finalNewlinePass .unset rows = rows := rfl

theorem posIntOrUnset_cases (x : Option Int) :
    posIntOrUnset x = .unset ∨ ∃ n : Int, 0 < n ∧ posIntOrUnset x = .val n := by
  cases x with
  | none => left; rfl
  | some n =>
    by_cases hn : n ≤ 0
    · left; simp [posIntOrUnset, hn]
    · right; exact ⟨n, by omega, by simp [posIntOrUnset, hn]⟩

theorem settleFulfilled_of_ok (host : HostConfig) (config : RawConfig)
    (w w2 : World) (h : thenCallback host config w = .ok w2) :
    settleFulfilled host config w = ⟨w2, [], none⟩ := by
  unfold settleFulfilled
  rw [h]

theorem settleFulfilled_of_err (host : HostConfig) (config : RawConfig)
    (w : World) (m : String) (w2 : World)
    (h : thenCallback host config w = .error (.typeError m, w2)) :
    settleFulfilled host config w =
      ⟨w2, ["atom-editorconfig: TypeError: " ++ m], none⟩ := by
  unfold settleFulfilled
  rw [h]

/-! ## Claim theorems -/

/-- C1 (code bug): the normalization block is not total.  On a raw config
whose `indent_style` value is the boolean `true` (as the external parser
produces for an `indent_style = true` line), `config.indent_style.search`
is called on a boolean and throws a `TypeError` instead of falling back
to `'unset'`, leaving the settings record half-updated: the
`trim_trailing_whitespace` field has already been written. -/
theorem c1_throw_on_boolean_indent_style :
    normalizeSettings cfgBooleanStyle initialSettings =
      .error (.typeError "config.indent_style.search is not a function",
        { initialSettings with trim_trailing_whitespace := .val true }) := by
  decide

/-- C2 (amended): with `insert_final_newline === true` the hook leaves
exactly one trailing newline and no extra trailing blank lines *provided*
the buffer has a non-blank row and every blank row is empty; with `false`
it is the identity when the last row is non-blank, leaves a non-blank
last row whenever some row is non-blank, and never lengthens the buffer;
with `'unset'` it never touches the buffer. -/
theorem c2_final_newline_amended :
    (∀ rows : List String,
        (∃ i : Fin rows.length, isBlankStr (rows.get i) = false) →
        (∀ i : Fin rows.length, isBlankStr (rows.get i) = true → rows.get i = "") →
        exactlyOneFinalNewline (finalNewlinePass (.val true) rows)) ∧
    (∀ rows : List String, isBlankStr (rows.getD (rows.length - 1) "") = false →
        finalNewlinePass (.val false) rows = rows) ∧
    (∀ rows : List String,
        (∃ i : Fin rows.length, isBlankStr (rows.get i) = false) →
        isBlankStr ((finalNewlinePass (.val false) rows).getD
          ((finalNewlinePass (.val false) rows).length - 1) "") = false) ∧
    (∀ rows : List String, (finalNewlinePass (.val false) rows).length ≤ rows.length) ∧
    (∀ rows : List String, finalNewlinePass .unset rows = rows) :=
  ⟨c2_true_case, c2_false_id, c2_false_strips, c2_false_len, c2_unset_id⟩

/-- C2 witness: concrete buffers through each clause of the theorem. -/
theorem c2_final_newline_witness :
    exactlyOneFinalNewline (finalNewlinePass (.val true) ["x", "", ""]) ∧
    finalNewlinePass (.val false) ["x"] = ["x"] ∧
    isBlankStr ((finalNewlinePass (.val false) ["x", ""]).getD
      ((finalNewlinePass (.val false) ["x", ""]).length - 1) "") = false :=
  ⟨c2_final_newline_amended.1 ["x", "", ""] (by decide) (by decide),
   c2_final_newline_amended.2.1 ["x"] (by decide),
   c2_final_newline_amended.2.2.1 ["x", ""] (by decide)⟩

/-- C2 counterexample: on the buffer `"a\n  \n"` — whose trailing blank
line consists of spaces — `insert_final_newline === true` deletes the
final empty row and leaves `"a\n  "`, which has *no* trailing newline at
all, refuting the claimed guarantee of exactly one trailing newline. -/
theorem c2_counterexample :
    finalNewlinePass (.val true) ["a", "  ", ""] = ["a", "  "] ∧
    bufferText (finalNewlinePass (.val true) ["a", "  ", ""]) = "a\n  " ∧
    ¬ exactlyOneFinalNewline (finalNewlinePass (.val true) ["a", "  ", ""]) := by
  decide

/-- C3 (amended): the applier checks only that some editor still displays
the target buffer: a completion for a buffer that no editor displays
mutates no editor, buffer or view state and emits no severity update
(though the stored settings record is still overwritten).  There is no
request-freshness check, so for a still-displayed buffer completions
apply in completion order. -/
theorem c3_stale_resolution_amended (host : HostConfig) (config : RawConfig)
    (w : World) (h : getCurrentEditor w = none) :
    (runCompletion host config w).editors = w.editors ∧
    (runCompletion host config w).buffer = w.buffer ∧
    (runCompletion host config w).wrapGuide = w.wrapGuide ∧
    (runCompletion host config w).stateEmits = w.stateEmits ∧
    (runCompletion host config w).guideUpdates = w.guideUpdates := by
  by_cases he : config.isEmpty = true
  · have ht : thenCallback host config w = .ok w := by
      unfold thenCallback
      rw [if_pos he]
    have hrc : runCompletion host config w = w := by
      unfold runCompletion
      simp only [resolveAndApply]
      rw [settleFulfilled_of_ok host config w w ht]
    rw [hrc]
    exact ⟨rfl, rfl, rfl, rfl, rfl⟩
  · cases hn : normalizeSettings config w.settings with
    | ok s =>
      have ht : thenCallback host config w =
          .ok (applySettings host { w with settings := s, ecfgConfig := some config }) := by
        unfold thenCallback
        rw [if_neg he, hn]
      have h2 : getCurrentEditor
          { w with settings := s, ecfgConfig := some config } = none := h
      have ha : applySettings host { w with settings := s, ecfgConfig := some config } =
          { w with settings := s, ecfgConfig := some config } := by
        unfold applySettings
        rw [h2]
      have hrc : runCompletion host config w =
          { w with settings := s, ecfgConfig := some config } := by
        unfold runCompletion
        simp only [resolveAndApply]
        rw [settleFulfilled_of_ok host config w _ ht, ha]
      rw [hrc]
      exact ⟨rfl, rfl, rfl, rfl, rfl⟩
    | error es =>
      obtain ⟨e, sHalf⟩ := es
      cases e with
      | typeError m =>
        have ht : thenCallback host config w =
            .error (.typeError m, { w with settings := sHalf, ecfgConfig := some config }) := by
          unfold thenCallback
          rw [if_neg he, hn]
        have hrc : runCompletion host config w =
            { w with settings := sHalf, ecfgConfig := some config } := by
          unfold runCompletion
          simp only [resolveAndApply]
          rw [settleFulfilled_of_err host config w m _ ht]
        rw [hrc]
        exact ⟨rfl, rfl, rfl, rfl, rfl⟩

/-- C3 witness: a completion for an undisplayed buffer leaves editors,
buffer, view and counters unchanged. -/
theorem c3_stale_resolution_witness :
    (runCompletion host0 cfgOldPath worldNoEditor).editors = worldNoEditor.editors ∧
    (runCompletion host0 cfgOldPath worldNoEditor).buffer = worldNoEditor.buffer ∧
    (runCompletion host0 cfgOldPath worldNoEditor).wrapGuide = worldNoEditor.wrapGuide ∧
    (runCompletion host0 cfgOldPath worldNoEditor).stateEmits = worldNoEditor.stateEmits ∧
    (runCompletion host0 cfgOldPath worldNoEditor).guideUpdates = worldNoEditor.guideUpdates :=
  c3_stale_resolution_amended host0 cfgOldPath worldNoEditor (by decide)

/-- C3 counterexample: buffer 7 stays displayed while its path changed;
the later request (new path, tab width 2) completes first, then the
earlier request (old path, tab width 8) completes and *does* mutate the
editor, clobbering the more current result: the editor's tab length ends
at 8, not 2. -/
theorem c3_counterexample :
    (runCompletion host0 cfgNewPath world0).settings.tab_width = .val 2 ∧
    ((runCompletion host0 cfgNewPath world0).editors.map EditorState.tabLength) = [2] ∧
    (runCompletion host0 cfgOldPath
      (runCompletion host0 cfgNewPath world0)).settings.tab_width = .val 8 ∧
    ((runCompletion host0 cfgOldPath
      (runCompletion host0 cfgNewPath world0)).editors.map EditorState.tabLength) = [8] := by
  decide

/-- C4: an empty raw config short-circuits the resolution callback: the
world — stored settings, editors, buffer, view and both counters — is
returned entirely unchanged and nothing is re-applied. -/
theorem c4_empty_config_no_mutation (host : HostConfig) (config : RawConfig)
    (w : World) (h : config.isEmpty = true) :
    thenCallback host config w = .ok w := by
  unfold thenCallback
  rw [if_pos h]

/-- C4 witness: the empty config at a concrete displayed world. -/
theorem c4_empty_config_witness :
    thenCallback host0 emptyRawConfig world0 = .ok world0 :=
  c4_empty_config_no_mutation host0 emptyRawConfig world0 (by decide)

/-- C5 (amended): a rejection whose reason is an `Error` instance is
caught by the typed catch `.catch(Error, ...)`: a warning is logged,
nothing propagates, and the world — stored settings and severity state
included — is completely unchanged. -/
theorem c5_rejection_amended (host : HostConfig) (w : World) (m : String) :
    resolveAndApply host (.error (.errInstance m)) w =
      ⟨w, ["atom-editorconfig: " ++ m], none⟩ := rfl

/-- C5 counterexample: a rejection whose reason is not an `Error`
instance slips past the typed catch: it propagates unhandled and no
warning is logged, refuting the claim for arbitrary rejections. -/
theorem c5_counterexample :
    (resolveAndApply host0 (.error (.nonError "boom")) world0).unhandled =
      some (.nonError "boom") ∧
    (resolveAndApply host0 (.error (.nonError "boom")) world0).warnings = [] := by
  decide

/-- C6: attaching the wrap-guide override twice equals attaching it once;
on first attachment the original computations remain reachable under the
`native` names, and the interceptor delegates to the preserved original
when `max_line_length` is `'unset'` while answering the override value
when it is set. -/
theorem c6_interceptor_idempotent :
    (∀ g : WrapGuide, attachInterceptor (attachInterceptor g) = attachInterceptor g) ∧
    (∀ g : WrapGuide, g.hasEcfgMarker = false →
        (attachInterceptor g).getNativeGuideColumn = some g.getGuideColumn ∧
        (attachInterceptor g).getNativeGuidesColumns = some g.getGuidesColumns) ∧
    (∀ (g : WrapGuide) (ev : GuideFn → Int), g.hasEcfgMarker = false →
        evalGuideColumn (attachInterceptor g) .unset ev = some (ev g.getGuideColumn)) ∧
    (∀ (g : WrapGuide) (ev : GuideFn → Int) (n : Int), g.hasEcfgMarker = false →
        evalGuideColumn (attachInterceptor g) (.val n) ev = some n) := by
  refine ⟨?_, ?_, ?_, ?_⟩
  · intro g
    by_cases h : g.hasEcfgMarker = true <;> simp [attachInterceptor, h]
  · intro g h
    constructor <;> simp [attachInterceptor, h]
  · intro g ev h
    simp [attachInterceptor, evalGuideColumn, h]
  · intro g ev n h
    simp [attachInterceptor, evalGuideColumn, h]

/-- C6 witness: a fresh guide view through each clause of the theorem. -/
theorem c6_interceptor_witness :
    attachInterceptor (attachInterceptor guide0) = attachInterceptor guide0 ∧
    (attachInterceptor guide0).getNativeGuideColumn = some guide0.getGuideColumn ∧
    evalGuideColumn (attachInterceptor guide0) .unset (fun _ => 80) =
      some ((fun _ => (80 : Int)) guide0.getGuideColumn) ∧
    evalGuideColumn (attachInterceptor guide0) (.val 100) (fun _ => 80) = some 100 :=
  ⟨c6_interceptor_idempotent.1 guide0,
   (c6_interceptor_idempotent.2.1 guide0 rfl).1,
   c6_interceptor_idempotent.2.2.1 guide0 (fun _ => 80) rfl,
   c6_interceptor_idempotent.2.2.2 guide0 (fun _ => 80) 100 rfl⟩

/-- C7 (amended): re-resolution triggered by saving a `.editorconfig`
file runs over **every** open text editor in the workspace: every editor
with a backing file whose resolved config is non-empty and normalizes
cleanly has its settings re-resolved and re-applied, whether or not the
saved file governs it. -/
theorem c7_reapply_all_amended (env : String → RawConfig)
    (eds : List WEditor) (e : WEditor) (f : String) (s : Settings)
    (hm : e ∈ eds) (hf : e.file = some f) (hne : (env f).isEmpty = false)
    (hn : normalizeSettings (env f) e.settings = .ok s) :
    e.eid ∈ (reapplyAll env eds).2 := by
  induction eds with
  | nil => cases hm
  | cons a rest ih =>
    rcases List.mem_cons.mp hm with hea | hm2
    · have hobs : observeOne env e = ({ e with settings := s }, [e.eid]) := by
        simp only [observeOne, hf]
        rw [if_neg (by simp [hne]), hn]
      show e.eid ∈ (observeOne env a).2 ++ (reapplyAll env rest).2
      rw [← hea, hobs]
      simp
    · show e.eid ∈ (observeOne env a).2 ++ (reapplyAll env rest).2
      exact List.mem_append_right _ (ih hm2)

/-- C7 witness: editor 2 (not governed by the saved file) receives a
re-application event. -/
theorem c7_reapply_all_witness : (2 : Nat) ∈ (reapplyAll envW [edA, edB]).2 :=
  c7_reapply_all_amended envW [edA, edB] edB "/q/b.txt" settingsB
    (by decide) (by decide) (by decide) (by decide)

/-- C7 counterexample: saving `/p/.editorconfig` re-applies settings to
both open editors — editor 2 included, although its file `/q/b.txt` is
not governed by the saved file (its stored settings value is unchanged,
yet it is re-resolved and re-applied). -/
theorem c7_counterexample :
    (reapplyAll envW [edA, edB]).2 = [1, 2] ∧
    governs "/p/.editorconfig" "/p/a.txt" = true ∧
    governs "/p/.editorconfig" "/q/b.txt" = false ∧
    (reapplyAll envW [edA, edB]).1.getD 1 edA = edB := by
  decide

/-- C8 (amended): the normalized tab width is always `'unset'` or a
positive integer; the integer is parsed from `indent_size` when that key
holds a *truthy* value and from `tab_width` when `indent_size` is absent
or falsy (empty string, `false`); `"0"`, `"-3"` and `"abc"` normalize to
`'unset'` and `"4"` to the integer `4`. -/
theorem c8_tab_width_amended :
    (∀ (c : RawConfig) (prev s : Settings), normalizeSettings c prev = .ok s →
        s.tab_width = .unset ∨ ∃ n : Int, 0 < n ∧ s.tab_width = .val n) ∧
    (∀ c : RawConfig, jsTruthy c.indent_size = false →
        normTabWidth c = posIntOrUnset (parseIntOf c.tab_width)) ∧
    (∀ c : RawConfig, jsTruthy c.indent_size = true →
        normTabWidth c = posIntOrUnset (parseIntOf c.indent_size)) ∧
    normTabWidth { tab_width := some (.str "0") } = .unset ∧
    normTabWidth { tab_width := some (.str "-3") } = .unset ∧
    normTabWidth { tab_width := some (.str "abc") } = .unset ∧
    normTabWidth { tab_width := some (.str "4") } = .val 4 ∧
    normTabWidth { indent_size := some (.str "4") } = .val 4 := by
  refine ⟨?_, ?_, ?_, by decide, by decide, by decide, by decide, by decide⟩
  · intro c prev s h
    have hs : s.tab_width = normTabWidth c := by
      simp only [normalizeSettings] at h
      cases his : normIndentStyle c.indent_style with
      | error e => rw [his] at h; simp at h
      | ok style =>
        rw [his] at h
        cases hch : normCharset c.charset with
        | error e => rw [hch] at h; simp at h
        | ok ch =>
          rw [hch] at h
          simp only [Except.ok.injEq] at h
          rw [← h]
    rw [hs]
    exact posIntOrUnset_cases _
  · intro c h
    unfold normTabWidth
    rw [if_neg (by simp [h])]
  · intro c h
    unfold normTabWidth
    rw [if_pos h]

/-- C8 witness: the positivity clause and the falsy-fallthrough clause at
concrete configs. -/
theorem c8_tab_width_witness :
    (settingsTabFour.tab_width = .unset ∨
      ∃ n : Int, 0 < n ∧ settingsTabFour.tab_width = .val n) ∧
    normTabWidth cfgTabFour = posIntOrUnset (parseIntOf cfgTabFour.tab_width) :=
  ⟨c8_tab_width_amended.1 cfgTabFour initialSettings settingsTabFour (by decide),
   c8_tab_width_amended.2.1 cfgTabFour (by decide)⟩

/-- C8 counterexample: with `indent_size` present but holding the falsy
empty string, the claim's if-present rule yields `'unset'`, while the
code's truthiness fallthrough parses `tab_width` and yields `4`. -/
theorem c8_counterexample :
    tabWidthSpecReading cfgFalsyIndentSize = .unset ∧
    normTabWidth cfgFalsyIndentSize = .val 4 := by
  decide

/-- C9 (code bug): teardown over a workspace in which buffer 2 never had
an editorconfig state initialized throws a `TypeError` on that buffer
instead of skipping it: the iteration aborts, buffer 3 is never disposed
and the status icon is never removed. -/
theorem c9_teardown_throws :
    deactivate edsTeardown =
      ([⟨1, true, true⟩, ⟨2, false, false⟩, ⟨3, true, false⟩],
       some "TypeError: Cannot read property disposables of undefined", false) := by
  decide

/-- C10: when no open editor displays the buffer, `applySettings` returns
at once: no editor, buffer or view state is mutated and no severity/state
update is emitted. -/
theorem c10_apply_without_editor_is_noop (host : HostConfig) (w : World)
    (h : getCurrentEditor w = none) : applySettings host w = w := by
  unfold applySettings
  rw [h]

/-- C10 witness: a concrete world with no editors. -/
theorem c10_apply_without_editor_witness :
    applySettings host0 worldNoEditor = worldNoEditor :=
  c10_apply_without_editor_is_noop host0 worldNoEditor (by decide)

end AtomEditorconfig
